import Mathlib

/-
Verification of the audio-transcription CLI (src/mp3_to_text.py) against its
natural-language specification.  The Python source is shallowly embedded:
strings are modelled as lists of characters, machine integers as Int/Nat,
rational file sizes (MB) as Rat, and the remote service / audio library as
explicit oracles, following the spec's treatment of them as out-of-scope
collaborators.
-/

set_option autoImplicit false

/-- Error kinds raised by `AudioTranscriber.parse_time` and
`AudioTranscriber.trim_audio` (the Python code raises `ValueError`s whose
messages the spec names `InvalidTimeFormat`, `InvalidRange`,
`StartExceedsDuration`). -/
inductive TrimError where
  | invalidTimeFormat
  | invalidRange
  | startExceedsDuration
  deriving DecidableEq, Repr

/-- Python `str.split(sep)` for a single-character separator: every occurrence
of the separator splits, empty parts are kept, and the empty string yields one
empty part. -/
def splitChar (sep : Char) : List Char → List (List Char)
  | [] => [[]]
  | c :: cs =>
    match splitChar sep cs with
    | [] => [[c]]
    | p :: ps => if c = sep then [] :: p :: ps else (c :: p) :: ps

/-- The whitespace characters Python's `int()` strips from both ends. -/
def isPyWs (c : Char) : Bool :=
  c = ' ' || c = '\t' || c = '\n' || c = '\x0d' || c = '\x0b' || c = '\x0c'

/-- Numeric value of an ASCII digit. -/
def digitVal (c : Char) : Nat := c.toNat - 48

/-- Digits of a Python integer literal after the first digit: plain digits,
with single underscores permitted between digits (Python `int()` grammar). -/
def pyDigitsAux (acc : Nat) : List Char → Option Nat
  | [] => some acc
  | ['_'] => none
  | '_' :: c :: rest =>
    if c.isDigit then pyDigitsAux (10 * acc + digitVal c) rest else none
  | c :: rest =>
    if c.isDigit then pyDigitsAux (10 * acc + digitVal c) rest else none

/-- A nonempty digit sequence (first character must be a digit). -/
def pyDigits : List Char → Option Nat
  | [] => none
  | c :: rest => if c.isDigit then pyDigitsAux (digitVal c) rest else none

/-- Strip Python `int()` whitespace from both ends. -/
def stripPyWs (cs : List Char) : List Char :=
  ((cs.dropWhile isPyWs).reverse.dropWhile isPyWs).reverse

/-- Python's `int(s)` on a string: optional surrounding whitespace, optional
sign, then a nonempty digit sequence; `none` when `int()` would raise
`ValueError`. -/
def pyInt? (cs : List Char) : Option Int :=
  match stripPyWs cs with
  | '+' :: rest => (pyDigits rest).map (fun n => (n : Int))
  | '-' :: rest => (pyDigits rest).map (fun n => -(n : Int))
  | rest => (pyDigits rest).map (fun n => (n : Int))

/-- The two-part branch of `parse_time`: convert the minute and second parts
with Python `int()` and return `(minutes * 60 + seconds) * 1000`. -/
def parse_two (p0 p1 : List Char) : Except TrimError Int :=
  match pyInt? p0, pyInt? p1 with
  | some minutes, some seconds => .ok ((minutes * 60 + seconds) * 1000)
  | _, _ => .error .invalidTimeFormat

/-- `AudioTranscriber.parse_time`: split on a colon, require exactly two
parts, convert each with Python `int()`, and return
`(minutes * 60 + seconds) * 1000` milliseconds; any failure is the single
`InvalidTimeFormat` error the code raises. -/
def parse_time (cs : List Char) : Except TrimError Int :=
  match splitChar ':' cs with
  | [p0, p1] => parse_two p0 p1
  | _ => .error .invalidTimeFormat

theorem splitChar_ne_nil (sep : Char) (l : List Char) : splitChar sep l ≠ [] := by
  cases l with
  | nil => simp [splitChar]
  | cons c cs =>
    unfold splitChar
    cases splitChar sep cs with
    | nil => simp
    | cons p ps =>
      by_cases h : c = sep <;> simp [h]

theorem splitChar_not_mem {sep : Char} {l : List Char} (h : sep ∉ l) :
    splitChar sep l = [l] := by
  induction l with
  | nil => rfl
  | cons c cs ih =>
    have hc : c ≠ sep := fun hcs => h (hcs ▸ List.mem_cons_self c cs)
    have hcs : sep ∉ cs := fun hm => h (List.mem_cons_of_mem c hm)
    simp only [splitChar]
    rw [ih hcs]
    simp [hc]

theorem splitChar_append {sep : Char} {a b : List Char} (h : sep ∉ a) :
    splitChar sep (a ++ sep :: b) = a :: splitChar sep b := by
  induction a with
  | nil =>
    show splitChar sep (sep :: b) = [] :: splitChar sep b
    simp only [splitChar]
    cases hb : splitChar sep b with
    | nil => exact absurd hb (splitChar_ne_nil sep b)
    | cons p ps => simp
  | cons c cs ih =>
    have hc : c ≠ sep := fun hcs => h (hcs ▸ List.mem_cons_self c cs)
    have hcs : sep ∉ cs := fun hm => h (List.mem_cons_of_mem c hm)
    show splitChar sep (c :: (cs ++ sep :: b)) = (c :: cs) :: splitChar sep b
    simp only [splitChar]
    rw [ih hcs]
    simp [hc]

/-- Claim C6: every malformed time string — colon-separated part count not
exactly two, or some part not accepted by Python `int()` — makes
`parse_time` fail with `InvalidTimeFormat`. -/
theorem parse_time_malformed (cs : List Char)
    (h : (splitChar ':' cs).length ≠ 2 ∨ ∃ p ∈ splitChar ':' cs, pyInt? p = none) :
    parse_time cs = .error .invalidTimeFormat := by
  unfold parse_time
  cases hsp : splitChar ':' cs with
  | nil => rfl
  | cons p0 rest =>
    cases rest with
    | nil => rfl
    | cons p1 rest2 =>
      cases rest2 with
      | cons q qs => rfl
      | nil =>
        show parse_two p0 p1 = Except.error TrimError.invalidTimeFormat
        rcases h with hl | ⟨p, hp, hnone⟩
        · rw [hsp] at hl; simp at hl
        · rw [hsp] at hp
          simp only [List.mem_cons, List.not_mem_nil, or_false] at hp
          unfold parse_two
          rcases hp with rfl | rfl
          · rw [hnone]
          · rw [hnone]
            cases pyInt? p0 <;> rfl

/-- Claim C6 witness: the three-part string `1:2:3` fails with
`InvalidTimeFormat`. -/
theorem parse_time_malformed_witness :
    parse_time ("1:2:3".toList) = .error .invalidTimeFormat :=
  parse_time_malformed _ (Or.inl (by decide))

/-- Claim C7: a valid `MM:SS` string whose two colon-separated parts parse to
integers `m` and `s` yields exactly `(m * 60 + s) * 1000` milliseconds. -/
theorem parse_time_valid (cs p0 p1 : List Char) (m s : Int)
    (hsp : splitChar ':' cs = [p0, p1])
    (h0 : pyInt? p0 = some m) (h1 : pyInt? p1 = some s) :
    parse_time cs = .ok ((m * 60 + s) * 1000) := by
  unfold parse_time
  rw [hsp]
  show parse_two p0 p1 = _
  unfold parse_two
  rw [h0, h1]

/-- Claim C7 witness: `01:30` parses to 90000 milliseconds. -/
theorem parse_time_valid_witness :
    parse_time ("01:30".toList) = .ok 90000 :=
  parse_time_valid _ ("01".toList) ("30".toList) 1 30
    (by decide) (by decide) (by decide)

/-- Claim C10: time parsing accepts numerically out-of-range components —
any parts accepted by Python `int()`, including seconds ≥ 60 and negative
values, joined by a colon parse to `(m * 60 + s) * 1000` milliseconds; only
the separator count and non-integer parts are checked. -/
theorem parse_time_out_of_range (p0 p1 : List Char) (m s : Int)
    (h0 : pyInt? p0 = some m) (h1 : pyInt? p1 = some s)
    (hc0 : ':' ∉ p0) (hc1 : ':' ∉ p1) :
    parse_time (p0 ++ ':' :: p1) = .ok ((m * 60 + s) * 1000) := by
  unfold parse_time
  rw [splitChar_append hc0, splitChar_not_mem hc1]
  show parse_two p0 p1 = _
  unfold parse_two
  rw [h0, h1]

/-- Claim C10 witness: `00:90` (seconds ≥ 60) parses to 90000 ms and
`-1:30` (negative minutes) parses to -30000 ms. -/
theorem parse_time_out_of_range_witness :
    parse_time ("00:90".toList) = .ok 90000 ∧
      parse_time ("-1:30".toList) = .ok (-30000) := by
  refine ⟨?_, ?_⟩
  · have h := parse_time_out_of_range ("00".toList) ("90".toList) 0 90
      (by decide) (by decide) (by decide) (by decide)
    exact h
  · have h := parse_time_out_of_range ("-1".toList) ("30".toList) (-1) 30
      (by decide) (by decide) (by decide) (by decide)
    exact h

/-- Python truthiness of an optional string argument (argparse yields `None`
when a flag is absent; an empty string is also falsy). -/
def truthy : Option (List Char) → Bool
  | none => false
  | some [] => false
  | some (_ :: _) => true

/-- Modelled from the spec: the external audio library's millisecond slice
`audio[start_ms:end_ms]` (pydub `AudioSegment` slicing), which the spec
treats as an out-of-scope collaborator that "extracts the [start,end) slice".
Audio is a list with one element per millisecond. -/
def pySlice {α : Type} (audio : List α) (s e : Int) : List α :=
  (audio.take e.toNat).drop s.toNat

/-- Result of `AudioTranscriber.trim_audio`: either the original input path
(no temporary file created) or a freshly written temporary file holding the
trimmed clip. -/
inductive TrimOut (α : Type) where
  | original
  | trimmed (clip : List α)
  deriving DecidableEq

/-- `start_ms = self.parse_time(start_time) if start_time else 0`. -/
def resolvedStart (startTime : Option (List Char)) : Except TrimError Int :=
  if truthy startTime then parse_time (startTime.getD []) else .ok 0

/-- `end_ms = self.parse_time(end_time) if end_time else len(audio)`. -/
def resolvedEnd {α : Type} (audio : List α) (endTime : Option (List Char)) :
    Except TrimError Int :=
  if truthy endTime then parse_time (endTime.getD []) else .ok (audio.length : Int)

/-- `AudioTranscriber.trim_audio`: no-op when both bounds are falsy; otherwise
parse the bounds (defaults 0 and the audio duration), reject `start >= end`
then `start > len(audio)`, and export the `[start, end)` slice to a new
temporary file. -/
def trim_audio {α : Type} (audio : List α)
    (startTime endTime : Option (List Char)) : Except TrimError (TrimOut α) :=
  if !truthy startTime && !truthy endTime then .ok .original
  else
    match resolvedStart startTime with
    | .error e => .error e
    | .ok start_ms =>
      match resolvedEnd audio endTime with
      | .error e => .error e
      | .ok end_ms =>
        if start_ms ≥ end_ms then .error .invalidRange
        else if start_ms > (audio.length : Int) then .error .startExceedsDuration
        else .ok (.trimmed (pySlice audio start_ms end_ms))

/-- Claim C4: with neither a start nor an end time given, `trim_audio`
returns the original input path unchanged and creates no temporary file. -/
theorem trim_audio_noop {α : Type} (audio : List α) :
    trim_audio audio none none = .ok .original := rfl

/-- Claim C5 counterexample: with a 5-millisecond audio source, start `10:00`
and end `00:01`, the start time (600000 ms) is beyond the total duration
(5 ms), yet trimming fails with `InvalidRange`, not
`StartExceedsDuration` — the range check runs first. -/
theorem trim_audio_error_precedence_cex :
    resolvedStart (some ("10:00".toList)) = .ok 600000 ∧
      (600000 : Int) > ((List.replicate 5 (0 : Nat)).length : Int) ∧
      trim_audio (List.replicate 5 (0 : Nat))
          (some ("10:00".toList)) (some ("00:01".toList)) =
        .error .invalidRange ∧
      TrimError.invalidRange ≠ TrimError.startExceedsDuration := by
  refine ⟨rfl, by norm_num, rfl, by decide⟩

/-- Claim C5 (amended): with at least one bound given (start defaulting to 0,
end to the audio duration), trimming fails with `InvalidRange` whenever
`start >= end`; when `start < end` it fails with `StartExceedsDuration`
whenever start is beyond the total duration (so `InvalidRange` takes
precedence when both conditions hold); on success the produced clip is
exactly the `[start, end)` slice of the source. -/
theorem trim_audio_checks {α : Type} (audio : List α)
    (startTime endTime : Option (List Char)) (sv ev : Int)
    (hb : (truthy startTime || truthy endTime) = true)
    (hs : resolvedStart startTime = .ok sv)
    (he : resolvedEnd audio endTime = .ok ev) :
    (sv ≥ ev → trim_audio audio startTime endTime = .error .invalidRange) ∧
      (sv < ev → (audio.length : Int) < sv →
        trim_audio audio startTime endTime = .error .startExceedsDuration) ∧
      (sv < ev → sv ≤ (audio.length : Int) →
        trim_audio audio startTime endTime = .ok (.trimmed (pySlice audio sv ev))) := by
  have hcond : (!truthy startTime && !truthy endTime) = false := by
    cases hst : truthy startTime <;> cases het : truthy endTime <;>
      simp_all
  unfold trim_audio
  rw [hcond, hs, he]
  simp only [Bool.false_eq_true, if_false]
  refine ⟨fun h1 => ?_, fun h1 h2 => ?_, fun h1 h2 => ?_⟩
  · rw [if_pos h1]
  · rw [if_neg (by omega), if_pos (by omega)]
  · rw [if_neg (by omega), if_neg (by omega)]

/-- Claim C5 witness: audio of 3 ms, no start bound (defaults to 0), end
bound `0:01` (1000 ms): the range checks pass and the clip is the
`[0, 1000)` slice. -/
theorem trim_audio_checks_witness :
    ((0 : Int) ≥ 1000 →
        trim_audio (List.replicate 3 ()) none (some ("0:01".toList)) =
          .error .invalidRange) ∧
      ((0 : Int) < 1000 → ((List.replicate 3 ()).length : Int) < 0 →
        trim_audio (List.replicate 3 ()) none (some ("0:01".toList)) =
          .error .startExceedsDuration) ∧
      ((0 : Int) < 1000 → (0 : Int) ≤ ((List.replicate 3 ()).length : Int) →
        trim_audio (List.replicate 3 ()) none (some ("0:01".toList)) =
          .ok (.trimmed (pySlice (List.replicate 3 ()) 0 1000))) :=
  trim_audio_checks (List.replicate 3 ()) none (some ("0:01".toList)) 0 1000
    (by decide) rfl rfl

/-- The generic instruction of `AudioTranscriber.transcribe`. -/
def genericPrompt : List Char :=
  "Generate a transcript of the speech. Include all spoken content accurately.".toList

/-- The range-referencing instruction of `AudioTranscriber.transcribe`,
interpolating the raw start and end strings. -/
def rangePrompt (startTime endTime : List Char) : List Char :=
  "Provide a transcript of the speech from ".toList ++ startTime ++
    " to ".toList ++ endTime ++ ".".toList

/-- Prompt selection in `AudioTranscriber.transcribe`:
`if use_timestamps and start_time and end_time` picks the range-referencing
instruction, anything else the generic one. -/
def transcribe_prompt (useTimestamps : Bool)
    (startTime endTime : Option (List Char)) : List Char :=
  if useTimestamps && truthy startTime && truthy endTime then
    rangePrompt (startTime.getD []) (endTime.getD [])
  else genericPrompt

theorem rangePrompt_ne_generic (a b : List Char) :
    rangePrompt a b ≠ genericPrompt := by
  intro h
  have h2 : (rangePrompt a b).head? = genericPrompt.head? := by rw [h]
  have hr : (rangePrompt a b).head? = some 'P' := rfl
  have hg : genericPrompt.head? = some 'G' := rfl
  rw [hr, hg] at h2
  simp at h2

/-- Claim C3: the instruction sent to the model references the explicit
start–end range if and only if timestamp mode is requested and both a start
and an end time are present (Python-truthy); in every other case the generic
transcribe-everything instruction is used. -/
theorem transcribe_prompt_selection (u : Bool)
    (startTime endTime : Option (List Char)) :
    (transcribe_prompt u startTime endTime =
        rangePrompt (startTime.getD []) (endTime.getD []) ↔
      (u = true ∧ truthy startTime = true ∧ truthy endTime = true)) ∧
      (transcribe_prompt u startTime endTime = genericPrompt ↔
        ¬(u = true ∧ truthy startTime = true ∧ truthy endTime = true)) := by
  unfold transcribe_prompt
  by_cases hc : u = true ∧ truthy startTime = true ∧ truthy endTime = true
  · obtain ⟨h1, h2, h3⟩ := hc
    rw [h1, h2, h3]
    simp [rangePrompt_ne_generic]
  · have hb : (u && truthy startTime && truthy endTime) = false := by
      cases hu : u <;> cases hs : truthy startTime <;> cases he : truthy endTime <;>
        simp_all
    rw [hb]
    simp only [Bool.false_eq_true, if_false]
    constructor
    · constructor
      · intro h; exact absurd h.symm (rangePrompt_ne_generic _ _)
      · intro h; exact absurd h hc
    · simp [hc]

/-- The two content-preparation strategies of `main`: inline embedded bytes,
or upload to the remote service (`fallbackWarned` marks the inline-requested
but oversized fallback that emits a warning). -/
inductive PrepStrategy where
  | inlineBytes
  | upload (fallbackWarned : Bool)
  deriving DecidableEq

/-- `MAX_FILE_SIZE_MB = 20`. -/
def MAX_FILE_SIZE_MB : ℚ := 20

/-- The strategy decision of `main` (lines 300–311):
`if args.inline or file_size_mb < MAX_FILE_SIZE_MB`, with the inner
`if file_size_mb >= MAX_FILE_SIZE_MB` fallback-to-upload warning branch. -/
def decide_strategy (inlineFlag : Bool) (sizeMB : ℚ) : PrepStrategy :=
  if inlineFlag = true ∨ sizeMB < MAX_FILE_SIZE_MB then
    if sizeMB ≥ MAX_FILE_SIZE_MB then .upload true
    else .inlineBytes
  else .upload false

/-- Claim C2: the inline path is chosen exactly when the size is strictly
below the 20 MB threshold; upload is chosen (with a fallback warning exactly
when the inline flag is set despite size ≥ threshold) if and only if
size ≥ 20 MB. -/
theorem decide_strategy_spec (inlineFlag : Bool) (sizeMB : ℚ) :
    (decide_strategy inlineFlag sizeMB = .inlineBytes ↔
        sizeMB < MAX_FILE_SIZE_MB) ∧
      ((decide_strategy inlineFlag sizeMB = .upload true ∨
          decide_strategy inlineFlag sizeMB = .upload false) ↔
        MAX_FILE_SIZE_MB ≤ sizeMB) ∧
      (decide_strategy inlineFlag sizeMB = .upload true ↔
        (inlineFlag = true ∧ MAX_FILE_SIZE_MB ≤ sizeMB)) := by
  unfold decide_strategy
  rcases lt_or_ge sizeMB MAX_FILE_SIZE_MB with h | h
  · have h2 : ¬ sizeMB ≥ MAX_FILE_SIZE_MB := not_le.mpr h
    rw [if_pos (Or.inr h), if_neg h2]
    simp [h, h2]
  · have h2 : ¬ sizeMB < MAX_FILE_SIZE_MB := not_lt.mpr h
    cases hf : inlineFlag
    · rw [if_neg (by simp [h2])]
      simp [h, h2]
    · rw [if_pos (Or.inl rfl), if_pos h]
      simp [h, h2]

/-- Error raised by `AudioTranscriber.upload_file` when the terminal
processing state is not `ACTIVE`; it carries that state's name. -/
inductive UploadError where
  | uploadFailed (state : List Char)
  deriving DecidableEq

/-- The polling loop of `upload_file`: `f` gives the remote state name
observed at the k-th poll (the 0th comes from the upload call itself);
`while state == "PROCESSING": sleep(2); re-poll`.  Returns the index of the
first non-processing observation together with the list of sleep durations,
or `none` when the fuel runs out before the state leaves processing. -/
def pollLoop (f : Nat → List Char) : Nat → Nat → Option (Nat × List Nat)
  | 0, _ => none
  | fuel + 1, i =>
    if f i = "PROCESSING".toList then
      (pollLoop f fuel (i + 1)).map (fun r => (r.1, 2 :: r.2))
    else some (i, [])

/-- `AudioTranscriber.upload_file`: poll until the state leaves
`PROCESSING`, then fail with `UploadFailed(state)` unless the terminal state
is `ACTIVE`; on success the (abstract) handle is returned. -/
def upload_file (f : Nat → List Char) (fuel : Nat) :
    Option (Except UploadError Unit × List Nat) :=
  (pollLoop f fuel 0).map (fun r =>
    (if f r.1 ≠ "ACTIVE".toList then .error (.uploadFailed (f r.1)) else .ok (),
      r.2))

theorem pollLoop_spec (f : Nat → List Char) :
    ∀ (fuel i n : Nat) (sl : List Nat), pollLoop f fuel i = some (n, sl) →
      i ≤ n ∧ sl = List.replicate (n - i) 2 ∧
        f n ≠ "PROCESSING".toList ∧
        ∀ k, i ≤ k → k < n → f k = "PROCESSING".toList := by
  intro fuel
  induction fuel with
  | zero => intro i n sl h; simp [pollLoop] at h
  | succ fuel ih =>
    intro i n sl h
    unfold pollLoop at h
    by_cases hp : f i = "PROCESSING".toList
    · rw [if_pos hp] at h
      cases hr : pollLoop f fuel (i + 1) with
      | none => rw [hr] at h; simp at h
      | some r =>
        obtain ⟨rn, rsl⟩ := r
        rw [hr] at h
        simp only [Option.map_some'] at h
        obtain ⟨hn, hsl⟩ := Prod.mk.injEq _ _ _ _ ▸ (Option.some.injEq _ _ ▸ h)
        obtain ⟨h1, h2, h3, h4⟩ := ih (i + 1) rn rsl hr
        refine ⟨by omega, ?_, ?_, ?_⟩
        · rw [← hsl, h2, ← hn]
          have hsplit : rn - i = (rn - (i + 1)) + 1 := by omega
          rw [hsplit, List.replicate_succ]
        · rw [← hn]; exact h3
        · intro k hk1 hk2
          rw [← hn] at hk2
          rcases Nat.eq_or_lt_of_le hk1 with rfl | hlt
          · exact hp
          · exact h4 k hlt hk2
    · rw [if_neg hp] at h
      obtain ⟨hn, hsl⟩ := Prod.mk.injEq _ _ _ _ ▸ (Option.some.injEq _ _ ▸ h)
      subst hn
      refine ⟨le_refl _, by rw [← hsl]; simp, hp, ?_⟩
      intro k hk1 hk2
      omega

/-- Claim C8: as long as every observed state is `PROCESSING` the loop keeps
polling, sleeping exactly 2 time units before each re-poll; at the first
non-processing observation it stops — returning the handle exactly when that
terminal state is `ACTIVE`, and failing with `UploadFailed` carrying the
terminal state otherwise. -/
theorem upload_file_polling (f : Nat → List Char) (fuel n : Nat) (sl : List Nat)
    (h : pollLoop f fuel 0 = some (n, sl)) :
    (∀ k, k < n → f k = "PROCESSING".toList) ∧
      f n ≠ "PROCESSING".toList ∧
      sl = List.replicate n 2 ∧
      upload_file f fuel =
        some ((if f n = "ACTIVE".toList then .ok ()
          else .error (.uploadFailed (f n))), sl) ∧
      (upload_file f fuel = some (.ok (), sl) ↔ f n = "ACTIVE".toList) := by
  obtain ⟨h1, h2, h3, h4⟩ := pollLoop_spec f fuel 0 n sl h
  have hup : upload_file f fuel =
      some ((if f n = "ACTIVE".toList then .ok ()
        else .error (.uploadFailed (f n))), sl) := by
    unfold upload_file
    rw [h]
    simp only [Option.map_some']
    by_cases ha : f n = "ACTIVE".toList
    · rw [if_pos ha, if_neg (by simp [ha])]
    · rw [if_neg ha, if_pos ha]
  refine ⟨fun k hk => h4 k (Nat.zero_le k) hk, h3, by simpa using h2, hup, ?_⟩
  constructor
  · intro hok
    by_contra ha
    rw [hup] at hok
    rw [if_neg ha] at hok
    simp at hok
  · intro ha
    rw [hup, if_pos ha]

/-- Claim C8 witness: a remote file that is processing for two polls and then
active — the loop sleeps 2 units twice, then returns the handle. -/
theorem upload_file_polling_witness :
    (∀ k, k < 2 →
        (fun j => if j < 2 then "PROCESSING".toList else "ACTIVE".toList) k =
          "PROCESSING".toList) ∧
      (fun j => if j < 2 then "PROCESSING".toList else "ACTIVE".toList) 2 ≠
        "PROCESSING".toList ∧
      ([2, 2] : List Nat) = List.replicate 2 2 ∧
      upload_file
          (fun j => if j < 2 then "PROCESSING".toList else "ACTIVE".toList) 5 =
        some ((if (fun j => if j < 2 then "PROCESSING".toList else "ACTIVE".toList) 2 =
            "ACTIVE".toList then .ok ()
          else .error (.uploadFailed
            ((fun j => if j < 2 then "PROCESSING".toList else "ACTIVE".toList) 2))),
          [2, 2]) ∧
      (upload_file
          (fun j => if j < 2 then "PROCESSING".toList else "ACTIVE".toList) 5 =
          some (.ok (), [2, 2]) ↔
        (fun j => if j < 2 then "PROCESSING".toList else "ACTIVE".toList) 2 =
          "ACTIVE".toList) :=
  upload_file_polling
    (fun j => if j < 2 then "PROCESSING".toList else "ACTIVE".toList) 5 2 [2, 2]
    (by decide)

/-- The command-line arguments of `main` relevant to resource handling
(argparse yields `None`/`False` defaults; paths and the API key are elided). -/
structure Args where
  startTime : Option (List Char)
  endTime : Option (List Char)
  useTimestamps : Bool
  inlineFlag : Bool
  keepUploaded : Bool
  summaryRequested : Bool
  deriving DecidableEq

/-- Oracle for the fallible external calls `main` makes: each field tells
whether the corresponding call returns normally (`false` = raises). -/
structure Oracle where
  trimOk : Bool
  uploadOk : Bool
  transcribeOk : Bool
  summarizeOk : Bool
  deleteUploadedOk : Bool
  deleteTempOk : Bool
  deriving DecidableEq

/-- Observable outcome of the `try` block of `main` (before the `finally`
clause runs): exit code, which resources exist, and which cleanup calls the
`try` body itself performed. -/
structure TryOutcome where
  exitCode : Nat
  trimPerformed : Bool
  tempCreated : Bool
  remoteCreated : Bool
  remoteDeleteAttempted : Bool
  promptUsed : Option (List Char)
  deriving DecidableEq

/-- Observable outcome of a whole run of `main`, after the `finally` clause:
`tempDeleteAttempted` records whether the temporary-file cleanup path ran
(its own failure is only a warning, tracked by the oracle). -/
structure RunResult where
  exitCode : Nat
  trimPerformed : Bool
  tempCreated : Bool
  tempDeleteAttempted : Bool
  remoteCreated : Bool
  remoteDeleteAttempted : Bool
  promptUsed : Option (List Char)
  deriving DecidableEq

/-- The tail of the `try` block shared by both preparation strategies:
transcribe (lines 314–320), write the output, optionally summarize
(lines 334–345), then delete the uploaded file unless `--keep-uploaded`
(lines 348–349).  A raise anywhere exits with code 1. -/
def afterContent (a : Args) (o : Oracle) (doTrim remoteCreated : Bool) :
    TryOutcome :=
  let prompt := transcribe_prompt a.useTimestamps a.startTime a.endTime
  if !o.transcribeOk then
    ⟨1, doTrim, doTrim, remoteCreated, false, some prompt⟩
  else if a.summaryRequested && !o.summarizeOk then
    ⟨1, doTrim, doTrim, remoteCreated, false, some prompt⟩
  else
    ⟨0, doTrim, doTrim, remoteCreated, remoteCreated && !a.keepUploaded, some prompt⟩

/-- `main` physically trims only when a bound is given (Python-truthy) and
`--use-timestamps` is not set (lines 292–297). -/
def doTrimOf (a : Args) : Bool :=
  (truthy a.startTime || truthy a.endTime) && !a.useTimestamps

/-- The `try` block of `main` (lines 281–351): physically trim only when a
bound is given and `--use-timestamps` is not (lines 292–297), pick the
content strategy on the (possibly post-trim) size (lines 299–311, via
`decide_strategy`), then run the shared tail. -/
def mainTry (a : Args) (o : Oracle) (sizeMB trimmedSizeMB : ℚ) : TryOutcome :=
  if doTrimOf a && !o.trimOk then
    ⟨1, doTrimOf a, false, false, false, none⟩
  else
    match decide_strategy a.inlineFlag
        (if doTrimOf a then trimmedSizeMB else sizeMB) with
    | .inlineBytes => afterContent a o (doTrimOf a) false
    | .upload _ =>
      if !o.uploadOk then ⟨1, doTrimOf a, doTrimOf a, false, false, none⟩
      else afterContent a o (doTrimOf a) true

/-- A whole run of `main`: the `try` block, then the `finally` clause, which
attempts to delete the temporary trimmed file whenever it was created
(lines 359–366) on every exit path. -/
def runMain (a : Args) (o : Oracle) (sizeMB trimmedSizeMB : ℚ) : RunResult :=
  let t := mainTry a o sizeMB trimmedSizeMB
  ⟨t.exitCode, t.trimPerformed, t.tempCreated, t.tempCreated,
    t.remoteCreated, t.remoteDeleteAttempted, t.promptUsed⟩

theorem afterContent_cleanup (a : Args) (o : Oracle) (doTrim remoteCreated : Bool) :
    (afterContent a o doTrim remoteCreated).remoteCreated = remoteCreated ∧
      (afterContent a o doTrim remoteCreated).remoteDeleteAttempted =
        (((afterContent a o doTrim remoteCreated).exitCode == 0) &&
          remoteCreated && !a.keepUploaded) := by
  unfold afterContent
  split
  · simp
  · split
    · simp
    · simp

/-- Claim C1 counterexample arguments: a 25 MB file, no trim bounds, no
`--inline`, no `--keep-uploaded`, no summary. -/
def argsCex : Args := ⟨none, none, false, false, false, false⟩

/-- Claim C1 counterexample oracle: upload succeeds, the transcription call
raises. -/
def oracleCex : Oracle := ⟨true, true, false, true, true, true⟩

/-- Claim C1 counterexample: a remote resource is created (the 25 MB file is
uploaded), the transcription call then raises, the run exits with code 1 and
the caller did not ask to keep the upload — yet the remote resource's
cleanup path is never executed: `cleanup_file` is only reached on the
fully successful path of the `try` block. -/
theorem cleanup_missing_on_error_cex :
    (runMain argsCex oracleCex 25 0).remoteCreated = true ∧
      (runMain argsCex oracleCex 25 0).exitCode = 1 ∧
      argsCex.keepUploaded = false ∧
      (runMain argsCex oracleCex 25 0).remoteDeleteAttempted = false := by
  refine ⟨?_, ?_, rfl, ?_⟩ <;> rfl

/-- Claim C1 (amended): on every run — remote-call errors included — the
temporary trimmed file's cleanup path executes exactly when the file was
created; but the uploaded remote resource is deleted only when the whole
`try` block succeeds (exit code 0) with an upload and without
`--keep-uploaded` — a remote-call error after upload exits with code 1
without deleting the remote resource. -/
theorem cleanup_paths (a : Args) (o : Oracle) (sizeMB trimmedSizeMB : ℚ) :
    (runMain a o sizeMB trimmedSizeMB).tempDeleteAttempted =
      (runMain a o sizeMB trimmedSizeMB).tempCreated ∧
      (runMain a o sizeMB trimmedSizeMB).remoteDeleteAttempted =
        (((runMain a o sizeMB trimmedSizeMB).exitCode == 0) &&
          (runMain a o sizeMB trimmedSizeMB).remoteCreated && !a.keepUploaded) := by
  refine ⟨rfl, ?_⟩
  show (mainTry a o sizeMB trimmedSizeMB).remoteDeleteAttempted =
    (((mainTry a o sizeMB trimmedSizeMB).exitCode == 0) &&
      (mainTry a o sizeMB trimmedSizeMB).remoteCreated && !a.keepUploaded)
  unfold mainTry
  by_cases h1 : (doTrimOf a && !o.trimOk) = true
  · rw [if_pos h1]
    rfl
  · rw [if_neg h1]
    cases hst : decide_strategy a.inlineFlag
        (if doTrimOf a then trimmedSizeMB else sizeMB) with
    | inlineBytes =>
      obtain ⟨hc1, hc2⟩ := afterContent_cleanup a o (doTrimOf a) false
      rw [hc2, hc1]
    | upload w =>
      by_cases h2 : (!o.uploadOk) = true
      · rw [if_pos h2]
        rfl
      · rw [if_neg h2]
        obtain ⟨hc1, hc2⟩ := afterContent_cleanup a o (doTrimOf a) true
        rw [hc2, hc1]

theorem afterContent_fields (a : Args) (o : Oracle) (d r : Bool) :
    (afterContent a o d r).trimPerformed = d ∧
      (afterContent a o d r).promptUsed =
        some (transcribe_prompt a.useTimestamps a.startTime a.endTime) := by
  unfold afterContent
  split
  · exact ⟨rfl, rfl⟩
  · split
    · exact ⟨rfl, rfl⟩
    · exact ⟨rfl, rfl⟩

theorem mainTry_trimPerformed (a : Args) (o : Oracle) (sizeMB trimmedSizeMB : ℚ) :
    (mainTry a o sizeMB trimmedSizeMB).trimPerformed = doTrimOf a := by
  unfold mainTry
  by_cases h1 : (doTrimOf a && !o.trimOk) = true
  · rw [if_pos h1]
  · rw [if_neg h1]
    cases hst : decide_strategy a.inlineFlag
        (if doTrimOf a then trimmedSizeMB else sizeMB) with
    | inlineBytes => exact (afterContent_fields a o (doTrimOf a) false).1
    | upload w =>
      by_cases h2 : (!o.uploadOk) = true
      · rw [if_pos h2]
      · rw [if_neg h2]
        exact (afterContent_fields a o (doTrimOf a) true).1

theorem mainTry_prompt (a : Args) (o : Oracle) (sizeMB trimmedSizeMB : ℚ) :
    (mainTry a o sizeMB trimmedSizeMB).promptUsed = none ∨
      (mainTry a o sizeMB trimmedSizeMB).promptUsed =
        some (transcribe_prompt a.useTimestamps a.startTime a.endTime) := by
  unfold mainTry
  by_cases h1 : (doTrimOf a && !o.trimOk) = true
  · rw [if_pos h1]
    exact Or.inl rfl
  · rw [if_neg h1]
    cases hst : decide_strategy a.inlineFlag
        (if doTrimOf a then trimmedSizeMB else sizeMB) with
    | inlineBytes => exact Or.inr (afterContent_fields a o (doTrimOf a) false).2
    | upload w =>
      by_cases h2 : (!o.uploadOk) = true
      · rw [if_pos h2]
        exact Or.inl rfl
      · rw [if_neg h2]
        exact Or.inr (afterContent_fields a o (doTrimOf a) true).2

theorem afterContent_congr (a b : Args) (o : Oracle) (d r : Bool)
    (hsum : a.summaryRequested = b.summaryRequested)
    (hkeep : a.keepUploaded = b.keepUploaded)
    (hpr : transcribe_prompt a.useTimestamps a.startTime a.endTime =
      transcribe_prompt b.useTimestamps b.startTime b.endTime) :
    afterContent a o d r = afterContent b o d r := by
  unfold afterContent
  rw [hsum, hkeep, hpr]

theorem mainTry_congr (a b : Args) (o : Oracle) (sizeMB trimmedSizeMB : ℚ)
    (hda : doTrimOf a = false) (hdb : doTrimOf b = false)
    (hinl : a.inlineFlag = b.inlineFlag)
    (hsum : a.summaryRequested = b.summaryRequested)
    (hkeep : a.keepUploaded = b.keepUploaded)
    (hpr : transcribe_prompt a.useTimestamps a.startTime a.endTime =
      transcribe_prompt b.useTimestamps b.startTime b.endTime) :
    mainTry a o sizeMB trimmedSizeMB = mainTry b o sizeMB trimmedSizeMB := by
  unfold mainTry
  rw [hda, hdb, hinl]
  simp only [Bool.false_and, Bool.false_eq_true, if_false]
  cases hst : decide_strategy b.inlineFlag sizeMB with
  | inlineBytes => exact afterContent_congr a b o false false hsum hkeep hpr
  | upload w =>
    by_cases h2 : (!o.uploadOk) = true
    · rw [if_pos h2, if_pos h2]
    · rw [if_neg h2, if_neg h2]
      exact afterContent_congr a b o false true hsum hkeep hpr

/-- Claim C9: with `--use-timestamps` set and exactly one of `--start`/`--end`
given, the supplied bound is silently ignored — no physical trim is
performed, the run is indistinguishable from one with no bound at all (so no
error arises from the bound), and any instruction the Transcriber uses is
the generic one, not the range-referencing one. -/
theorem single_bound_ignored (a : Args) (o : Oracle) (sizeMB trimmedSizeMB : ℚ)
    (hu : a.useTimestamps = true)
    (hx : truthy a.startTime ≠ truthy a.endTime) :
    (runMain a o sizeMB trimmedSizeMB).trimPerformed = false ∧
      runMain a o sizeMB trimmedSizeMB =
        runMain ⟨none, none, a.useTimestamps, a.inlineFlag,
          a.keepUploaded, a.summaryRequested⟩ o sizeMB trimmedSizeMB ∧
      ((runMain a o sizeMB trimmedSizeMB).promptUsed = none ∨
        (runMain a o sizeMB trimmedSizeMB).promptUsed = some genericPrompt) := by
  have hd : doTrimOf a = false := by
    unfold doTrimOf
    rw [hu]
    simp
  have hprompt : transcribe_prompt a.useTimestamps a.startTime a.endTime =
      genericPrompt := by
    unfold transcribe_prompt
    rw [hu]
    cases hts : truthy a.startTime <;> cases hte : truthy a.endTime <;> simp_all
  have hprompt2 : transcribe_prompt a.useTimestamps none none = genericPrompt := by
    unfold transcribe_prompt
    rw [hu]
    rfl
  refine ⟨?_, ?_, ?_⟩
  · show (mainTry a o sizeMB trimmedSizeMB).trimPerformed = false
    rw [mainTry_trimPerformed, hd]
  · show (let t := mainTry a o sizeMB trimmedSizeMB;
      (⟨t.exitCode, t.trimPerformed, t.tempCreated, t.tempCreated,
        t.remoteCreated, t.remoteDeleteAttempted, t.promptUsed⟩ : RunResult)) = _
    rw [show mainTry a o sizeMB trimmedSizeMB =
      mainTry ⟨none, none, a.useTimestamps, a.inlineFlag,
        a.keepUploaded, a.summaryRequested⟩ o sizeMB trimmedSizeMB from
      mainTry_congr a _ o sizeMB trimmedSizeMB hd rfl rfl rfl rfl
        (hprompt.trans hprompt2.symm)]
    rfl
  · rcases mainTry_prompt a o sizeMB trimmedSizeMB with h | h
    · exact Or.inl h
    · rw [hprompt] at h
      exact Or.inr h

/-- Claim C9 witness: `--use-timestamps` with only `--start 01:30`: no trim,
same run as with no bounds, generic prompt. -/
theorem single_bound_ignored_witness :
    (runMain ⟨some ("01:30".toList), none, true, false, false, false⟩
        ⟨true, true, true, true, true, true⟩ 5 0).trimPerformed = false ∧
      runMain ⟨some ("01:30".toList), none, true, false, false, false⟩
          ⟨true, true, true, true, true, true⟩ 5 0 =
        runMain ⟨none, none, true, false, false, false⟩
          ⟨true, true, true, true, true, true⟩ 5 0 ∧
      ((runMain ⟨some ("01:30".toList), none, true, false, false, false⟩
          ⟨true, true, true, true, true, true⟩ 5 0).promptUsed = none ∨
        (runMain ⟨some ("01:30".toList), none, true, false, false, false⟩
          ⟨true, true, true, true, true, true⟩ 5 0).promptUsed =
          some genericPrompt) :=
  single_bound_ignored ⟨some ("01:30".toList), none, true, false, false, false⟩
    ⟨true, true, true, true, true, true⟩ 5 0 rfl (by decide)

/-- Claim C1 (amended) witness: the counterexample run instantiates the two
cleanup equalities. -/
theorem cleanup_paths_witness :
    (runMain argsCex oracleCex 25 0).tempDeleteAttempted =
      (runMain argsCex oracleCex 25 0).tempCreated ∧
      (runMain argsCex oracleCex 25 0).remoteDeleteAttempted =
        (((runMain argsCex oracleCex 25 0).exitCode == 0) &&
          (runMain argsCex oracleCex 25 0).remoteCreated &&
          !argsCex.keepUploaded) :=
  cleanup_paths argsCex oracleCex 25 0

/-- Claim C2 witness: a 25 MB file without `--inline` is uploaded without the
fallback warning. -/
theorem decide_strategy_spec_witness :
    (decide_strategy false 25 = .inlineBytes ↔ (25 : ℚ) < MAX_FILE_SIZE_MB) ∧
      ((decide_strategy false 25 = .upload true ∨
          decide_strategy false 25 = .upload false) ↔
        MAX_FILE_SIZE_MB ≤ (25 : ℚ)) ∧
      (decide_strategy false 25 = .upload true ↔
        (false = true ∧ MAX_FILE_SIZE_MB ≤ (25 : ℚ))) :=
  decide_strategy_spec false 25

/-- Claim C3 witness: timestamp mode with both `01:30` and `05:45` present
selects the instruction referencing that explicit range. -/
theorem transcribe_prompt_selection_witness :
    (transcribe_prompt true (some ("01:30".toList)) (some ("05:45".toList)) =
        rangePrompt ((some ("01:30".toList)).getD [])
          ((some ("05:45".toList)).getD []) ↔
      (true = true ∧ truthy (some ("01:30".toList)) = true ∧
        truthy (some ("05:45".toList)) = true)) ∧
      (transcribe_prompt true (some ("01:30".toList)) (some ("05:45".toList)) =
          genericPrompt ↔
        ¬(true = true ∧ truthy (some ("01:30".toList)) = true ∧
          truthy (some ("05:45".toList)) = true)) :=
  transcribe_prompt_selection true (some ("01:30".toList)) (some ("05:45".toList))

/-- Claim C4 witness: a concrete one-sample audio source with no bounds. -/
theorem trim_audio_noop_witness :
    trim_audio ([()] : List Unit) none none = .ok .original :=
  trim_audio_noop [()]
